import Mathlib

/-!
Verification development for the Sparta provisioning engine.

Part 1 models the Go assembler (`sparta.go`): content-addressed logical
naming via SHA1, the IAM role policy synthesizer, the permission
exporters, and `LambdaAWSInfo.export`.

Part 2 models the NodeJS custom-resource runtime
(`resources/provision/apigateway.js`): the delete task, the resource
tree walk driven by a single-worker queue, the method pipeline with its
permission-conflict suppression, and the deployment gate.

Machine words are modelled as `Nat` reduced mod `2^32` / `2^64`;
fallible or panicking code returns `Option` / `Except`.
-/

namespace SpartaVerify

/-! ### Bytes, hex, UTF-8 -/

/-- Truncate to a 32-bit word. -/
def w32 (n : Nat) : Nat := n % 4294967296

/-- Rotate a 32-bit word left by `b` bits. -/
def rotl (b n : Nat) : Nat :=
  w32 ((w32 n <<< b) + (w32 n >>> (32 - b)))

/-- Big-endian bytes of a 32-bit word. -/
def beBytes32 (n : Nat) : List Nat :=
  [(n >>> 24) % 256, (n >>> 16) % 256, (n >>> 8) % 256, n % 256]

/-- Big-endian bytes of a 64-bit value. -/
def beBytes64 (n : Nat) : List Nat :=
  [(n >>> 56) % 256, (n >>> 48) % 256, (n >>> 40) % 256, (n >>> 32) % 256,
   (n >>> 24) % 256, (n >>> 16) % 256, (n >>> 8) % 256, n % 256]

/-- Little-endian bytes (8 of them) of a 64-bit value; used by Go's
`binary.Write(hash, binary.LittleEndian, *int64)`. -/
def leBytes64 (n : Nat) : List Nat :=
  [n % 256, (n >>> 8) % 256, (n >>> 16) % 256, (n >>> 24) % 256,
   (n >>> 32) % 256, (n >>> 40) % 256, (n >>> 48) % 256, (n >>> 56) % 256]

/-- Two's-complement 64-bit image of an `Int` (Go `int64`). -/
def int64Bits (i : Int) : Nat :=
  (i % 18446744073709551616).toNat

/-- UTF-8 encoding of one character. -/
def utf8Char (c : Char) : List Nat :=
  let n := c.toNat
  if n < 128 then [n]
  else if n < 2048 then [192 + n / 64, 128 + n % 64]
  else if n < 65536 then
    [224 + n / 4096, 128 + (n / 64) % 64, 128 + n % 64]
  else
    [240 + n / 262144, 128 + (n / 4096) % 64, 128 + (n / 64) % 64, 128 + n % 64]

/-- UTF-8 bytes of a string. -/
def utf8 (s : String) : List Nat := (s.toList.map utf8Char).flatten

/-! ### SHA1 -/

/-- SHA1 round function. -/
def sha1F (t b c d : Nat) : Nat :=
  if t < 20 then (b &&& c) ||| ((4294967295 - w32 b) &&& d)
  else if t < 40 then b ^^^ c ^^^ d
  else if t < 60 then (b &&& c) ||| (b &&& d) ||| (c &&& d)
  else b ^^^ c ^^^ d

/-- SHA1 round constant. -/
def sha1K (t : Nat) : Nat :=
  if t < 20 then 1518500249
  else if t < 40 then 1859775393
  else if t < 60 then 2400959708
  else 3395469782

/-- SHA1 message padding: append `0x80`, zeros to 56 mod 64, then the
bit length as 8 big-endian bytes. -/
def sha1Pad (msg : List Nat) : List Nat :=
  let zeros := (119 - msg.length % 64) % 64
  msg ++ 128 :: List.replicate zeros 0 ++ beBytes64 (msg.length * 8)

/-- Pack bytes into big-endian 32-bit words. -/
def toWords32 : List Nat → List Nat
  | b0 :: b1 :: b2 :: b3 :: rest =>
      (((b0 * 256 + b1) * 256 + b2) * 256 + b3) :: toWords32 rest
  | _ => []

/-- Extend the 16 block words to the 80-entry schedule. -/
def sha1Extend (w : Array Nat) : Array Nat :=
  (List.range 64).foldl
    (fun w i =>
      w.push (rotl 1 (w.get! (i + 13) ^^^ w.get! (i + 8) ^^^ w.get! (i + 2) ^^^ w.get! i)))
    w

/-- One SHA1 block compression. -/
def sha1Compress (h : Nat × Nat × Nat × Nat × Nat) (block : List Nat) :
    Nat × Nat × Nat × Nat × Nat :=
  let w := sha1Extend (Array.mk (toWords32 block))
  let (h0, h1, h2, h3, h4) := h
  let r := (List.range 80).foldl
    (fun st t =>
      let (a, b, c, d, e) := st
      let temp := w32 (rotl 5 a + sha1F t b c d + e + sha1K t + w.get! t)
      (temp, a, rotl 30 b, c, d))
    (h0, h1, h2, h3, h4)
  let (a, b, c, d, e) := r
  (w32 (h0 + a), w32 (h1 + b), w32 (h2 + c), w32 (h3 + d), w32 (h4 + e))

/-- Fold the compression over 64-byte blocks. -/
def sha1Blocks (h : Nat × Nat × Nat × Nat × Nat) (bytes : List Nat) :
    Nat × Nat × Nat × Nat × Nat :=
  match bytes with
  | [] => h
  | b :: rest => sha1Blocks (sha1Compress h (b :: rest.take 63)) (rest.drop 63)
termination_by bytes.length
decreasing_by
  simp [List.length_drop]
  omega

/-- SHA1 digest: 20 bytes. -/
def sha1 (msg : List Nat) : List Nat :=
  let (h0, h1, h2, h3, h4) :=
    sha1Blocks (1732584193, 4023233417, 2562383102, 271733878, 3285377520) (sha1Pad msg)
  beBytes32 h0 ++ beBytes32 h1 ++ beBytes32 h2 ++ beBytes32 h3 ++ beBytes32 h4

/-- Lower-case hex digit. -/
def hexDigit (n : Nat) : Char :=
  if n < 10 then Char.ofNat (48 + n) else Char.ofNat (87 + n)

/-- Hex characters of a byte list. -/
def hexChars : List Nat → List Char
  | [] => []
  | b :: rest => hexDigit (b / 16 % 16) :: hexDigit (b % 16) :: hexChars rest

/-- Hex string of a byte list (`hex.EncodeToString` / `digest('hex')`). -/
def hexStr (bs : List Nat) : String := String.mk (hexChars bs)

/-- `hex.EncodeToString(sha1(msg))`. -/
def sha1Hex (msg : List Nat) : String := hexStr (sha1 msg)

theorem sha1_length (msg : List Nat) : (sha1 msg).length = 20 := by
  rw [sha1]
  rcases sha1Blocks (1732584193, 4023233417, 2562383102, 271733878, 3285377520)
      (sha1Pad msg) with ⟨a, b, c, d, e⟩
  simp [beBytes32]

theorem hexChars_length (bs : List Nat) : (hexChars bs).length = 2 * bs.length := by
  induction bs with
  | nil => simp [hexChars]
  | cons b rest ih => simp [hexChars, ih]; omega

theorem sha1Hex_length (msg : List Nat) : (sha1Hex msg).length = 40 := by
  simp [sha1Hex, hexStr, String.length, hexChars_length, sha1_length]

/-! ### JSON values and association-list maps

Go's `ArbitraryJSONObject` is `map[string]interface{}`; we model objects
as association lists with overwrite-on-existing-key insertion (`upsertA`),
which preserves the map's key-set and key-value semantics. -/

/-- Untyped JSON value. -/
inductive JVal where
  | null
  | str (s : String)
  | num (i : Int)
  | jbool (b : Bool)
  | arr (l : List JVal)
  | obj (l : List (String × JVal))

/-- A JSON object as a key-value list. -/
abbrev JObj := List (String × JVal)

/-- Map insert: overwrite the first binding of `k`, else append. -/
def upsertA {α : Type} (k : String) (v : α) : List (String × α) → List (String × α)
  | [] => [(k, v)]
  | (k', v') :: rest => if k' = k then (k, v) :: rest else (k', v') :: upsertA k v rest

/-- Map lookup. -/
def alookup {α : Type} (k : String) : List (String × α) → Option α
  | [] => none
  | (k', v') :: rest => if k' = k then some v' else alookup k rest

/-! ### Go assembler model (`sparta.go`) -/

/-- Character class of `reSanitize = [\.\-\s]+` (Go `\s` is
`[\t\n\f\r ]`). -/
def isSanitizedChar (c : Char) : Bool :=
  c = '.' || c = '-' || c = '\t' || c = '\n' || c = '\x0c' || c = '\r' || c = ' '

theorem dropWhile_length_le {α : Type} (p : α → Bool) (l : List α) :
    (l.dropWhile p).length ≤ l.length := by
  induction l with
  | nil => simp
  | cons a t ih =>
    by_cases h : p a
    · simp [List.dropWhile, h]; omega
    · simp [List.dropWhile, h]

/-- Replace each run of characters matching `reSanitize` with one `_`. -/
def sanitizeChars : List Char → List Char
  | [] => []
  | c :: rest =>
    if isSanitizedChar c then '_' :: sanitizeChars (rest.dropWhile isSanitizedChar)
    else c :: sanitizeChars rest
termination_by l => l.length
decreasing_by
  · have := dropWhile_length_le isSanitizedChar rest
    simp
    omega
  · simp

/-- `sanitizedName`: `reSanitize.ReplaceAllString(input, "_")`. -/
def sanitizedName (s : String) : String := String.mk (sanitizeChars s.toList)

/-- `CloudFormationResourceName`: prefix plus hash of prefix and a random
value; the random draw is passed in explicitly. -/
def CloudFormationResourceName (randValue : Int) (p : String) : String :=
  p ++ sha1Hex (utf8 p ++ utf8 (toString randValue))

/-- One IAM privilege statement (`IAMRolePrivilege`). -/
structure IAMRolePrivilege where
  Actions : List String
  Resource : String
deriving DecidableEq

/-- Inline role definition (`IAMRoleDefinition`). -/
structure IAMRoleDefinition where
  Privileges : List IAMRolePrivilege
deriving DecidableEq

/-- Go `fmt.Sprintf("%s", aStringSlice)`: `[a b c]`. -/
def goFmtStringSlice (l : List String) : String :=
  "[" ++ String.intercalate " " l ++ "]"

/-- Go `%s` of one `IAMRolePrivilege` struct value. -/
def goFmtPrivilege (p : IAMRolePrivilege) : String :=
  "\x7b" ++ goFmtStringSlice p.Actions ++ " " ++ p.Resource ++ "\x7d"

/-- Go `fmt.Sprintf("%s", roleDefinition.Privileges)`. -/
def goFmtPrivileges (l : List IAMRolePrivilege) : String :=
  "[" ++ String.intercalate " " (l.map goFmtPrivilege) ++ "]"

/-- `IAMRoleDefinition.logicalName`: hash of the formatted `Privileges`
slice only. -/
def IAMRoleDefinition.logicalName (rd : IAMRoleDefinition) : String :=
  "IAMRole" ++ sha1Hex (utf8 (goFmtPrivileges rd.Privileges))

/-- Split a character list on a separator character; the shape of Go's
`strings.Split` with a one-character separator (`"" ↦ [""]`,
`"a:b" ↦ ["a","b"]`, trailing separator yields a final `""`). -/
def splitOnChar (sep : Char) : List Char → List (List Char)
  | [] => [[]]
  | c :: rest =>
    if c = sep then [] :: splitOnChar sep rest
    else
      match splitOnChar sep rest with
      | h :: t => (c :: h) :: t
      | [] => [[c]]

/-- Go `strings.Split(s, sep)` for a one-character separator. -/
def stringsSplit (s : String) (sep : Char) : List String :=
  (splitOnChar sep s.toList).map String.mk

/-- `AssumePolicyDocument`. -/
def assumePolicyDocument : JVal :=
  .obj [("Version", .str "2012-10-17"),
        ("Statement", .arr
          [.obj [("Effect", .str "Allow"),
                 ("Principal", .obj [("Service", .arr [.str "lambda.amazonaws.com"])]),
                 ("Action", .arr [.str "sts:AssumeRole"])],
           .obj [("Effect", .str "Allow"),
                 ("Principal", .obj [("Service", .arr [.str "ec2.amazonaws.com"])]),
                 ("Action", .arr [.str "sts:AssumeRole"])]])]

/-- `CommonIAMStatements`: the mutable package-level template map. The
statement values are shared Go maps, so appending one to a policy and
then assigning its `Resource` key mutates the template itself; the model
therefore threads this map as explicit state. -/
def commonIAMStatements : List (String × JObj) :=
  [("cloudformation",
     [("Action", .arr [.str "logs:CreateLogGroup", .str "logs:CreateLogStream",
                       .str "logs:PutLogEvents"]),
      ("Effect", .str "Allow"),
      ("Resource", .str "arn:aws:logs:*:*:*")]),
   ("dynamodb",
     [("Effect", .str "Allow"),
      ("Action", .arr [.str "dynamodb:DescribeStream", .str "dynamodb:GetRecords",
                       .str "dynamodb:GetShardIterator", .str "dynamodb:ListStreams"])]),
   ("kinesis",
     [("Effect", .str "Allow"),
      ("Action", .arr [.str "kinesis:GetRecords", .str "kinesis:GetShardIterator",
                       .str "kinesis:DescribeStream", .str "kinesis:ListStreams"])])]

/-- A statement held in the policy under construction: either a fresh
object (privilege statements, built inline) or a reference to the shared
template map entry for a service (what Go's `append(statements,
serviceStatements)` stores). -/
inductive StmtRef where
  | val (o : JObj)
  | ref (service : String)

/-- `lambda.CreateEventSourceMappingInput` (pointer-typed fields). -/
structure CreateEventSourceMappingInput where
  EventSourceArn : Option String
  StartingPosition : Option String
  BatchSize : Option Int
  Enabled : Option Bool

/-- Statement accumulation of `rolePolicy` (lines 446-468): the baseline
`cloudformation` statement, one fresh statement per privilege, then per
mapping a service lookup on the third colon-delimited ARN segment.
`none` models a Go panic: a nil `EventSourceArn` deref, or the
index-out-of-range read `arnParts[2]` when the split has exactly two
parts (the guard only checks `len(arnParts) >= 2`). -/
def rolePolicyGo (mappings : List CreateEventSourceMappingInput)
    (acc : List StmtRef) (t : List (String × JObj)) :
    Option (List StmtRef × List (String × JObj)) :=
  match mappings with
  | [] => some (acc, t)
  | m :: rest =>
    match m.EventSourceArn with
    | none => none
    | some arn =>
      let arnParts := stringsSplit arn ':'
      if arnParts.length ≥ 2 then
        match arnParts[2]? with
        | none => none
        | some awsService =>
          match alookup awsService t with
          | some serviceStatements =>
              rolePolicyGo rest (acc ++ [.ref awsService])
                (upsertA awsService (upsertA "Resource" (.str arn) serviceStatements) t)
          | none => rolePolicyGo rest acc t
      else rolePolicyGo rest acc t

/-- The statement list built by `rolePolicy` before the event-source
loop runs. -/
def rolePolicyStatements (privs : List IAMRolePrivilege)
    (mappings : List CreateEventSourceMappingInput)
    (t : List (String × JObj)) :
    Option (List StmtRef × List (String × JObj)) :=
  rolePolicyGo mappings
    (.ref "cloudformation" ::
      privs.map (fun p =>
        .val [("Effect", .str "Allow"),
              ("Action", .arr (p.Actions.map .str)),
              ("Resource", .str p.Resource)]))
    t

/-- Dereference a statement against the template map state current at
observation time (in Go the policy holds the shared maps themselves). -/
def renderStmt (t : List (String × JObj)) : StmtRef → JObj
  | .val o => o
  | .ref s => (alookup s t).getD []

/-- The policy's statement objects as observed right after one
`rolePolicy` call, with the template map in its end-of-call state. -/
def resolvedStatements (privs : List IAMRolePrivilege)
    (mappings : List CreateEventSourceMappingInput)
    (t : List (String × JObj)) : Option (List JObj) :=
  (rolePolicyStatements privs mappings t).map (fun r => r.1.map (renderStmt r.2))

/-- `IAMRoleDefinition.rolePolicy`: the full `AWS::IAM::Role` resource
value (statements rendered at end of call), plus the template map
state after the call. -/
def IAMRoleDefinition.rolePolicy (rd : IAMRoleDefinition)
    (mappings : List CreateEventSourceMappingInput)
    (t : List (String × JObj)) (randValue : Int) :
    Option (JVal × List (String × JObj)) :=
  (rolePolicyStatements rd.Privileges mappings t).map (fun r =>
    (.obj [("Type", .str "AWS::IAM::Role"),
           ("Properties", .obj
             [("AssumeRolePolicyDocument", assumePolicyDocument),
              ("Policies", .arr
                [.obj [("PolicyName", .str (CloudFormationResourceName randValue "LambdaPolicy")),
                       ("PolicyDocument", .obj
                         [("Version", .str "2012-10-17"),
                          ("Statement", .arr ((r.1.map (renderStmt r.2)).map .obj))])]])])],
     r.2))

/-- The assembler's resource accumulator (`resources ArbitraryJSONObject`). -/
abbrev Resources := List (String × JVal)

/-- `BasePermission` common permission data. -/
structure BasePermission where
  SourceAccount : String
  SourceArn : String
deriving DecidableEq

/-- The permission resource's logical name: `LambdaPerm` plus the hash
of principal, then source account and source ARN when non-empty
(lines 203-212). -/
def permResourceName (principal : String) (perm : BasePermission) : String :=
  "LambdaPerm" ++ sha1Hex (utf8 principal
    ++ (if perm.SourceAccount ≠ "" then utf8 perm.SourceAccount else [])
    ++ (if perm.SourceArn ≠ "" then utf8 perm.SourceArn else []))

/-- The `AWS::Lambda::Permission` resource value built by
`BasePermission.export` (lines 187-202): optional fields appear only
when non-empty. -/
def permPrimaryResource (perm : BasePermission) (principal : String)
    (targetLambdaFuncRef : JVal) : JVal :=
  let properties : JObj :=
    [("Action", .str "lambda:InvokeFunction"),
     ("FunctionName", targetLambdaFuncRef),
     ("Principal", .str principal)]
  let properties :=
    if perm.SourceAccount ≠ "" then properties ++ [("SourceAccount", JVal.str perm.SourceAccount)]
    else properties
  let properties :=
    if perm.SourceArn ≠ "" then properties ++ [("SourceArn", JVal.str perm.SourceArn)]
    else properties
  .obj [("Type", .str "AWS::Lambda::Permission"), ("Properties", .obj properties)]

/-- `BasePermission.export`: emit the `AWS::Lambda::Permission` resource
and return its name. -/
def BasePermission.exportPermission (perm : BasePermission) (principal : String)
    (targetLambdaFuncRef : JVal) (resources : Resources) : Resources × String :=
  let resourceName := permResourceName principal perm
  (upsertA resourceName (permPrimaryResource perm principal targetLambdaFuncRef) resources,
   resourceName)

/-- The `LambdaPermissionExporter` interface: a grant exports against the
target function reference and the shared accumulator, returning a
resource name or an error. -/
abbrev Exporter := JVal → Resources → Resources × Except String String

/-- `LambdaPermission` (Direct variant). -/
structure LambdaPermission where
  base : BasePermission
  Principal : String

/-- `LambdaPermission.export` delegates to `BasePermission.export`. -/
def LambdaPermission.exporter (perm : LambdaPermission) : Exporter :=
  fun ref res =>
    let r := perm.base.exportPermission perm.Principal ref res
    (r.1, .ok r.2)

/-- `LambdaFunctionOptions`. -/
structure LambdaFunctionOptions where
  Description : String
  MemorySize : Int
  Timeout : Int

/-- `LambdaAWSInfo`. -/
structure LambdaAWSInfo where
  lambdaFnName : String
  RoleName : String
  RoleDefinition : Option IAMRoleDefinition
  Options : LambdaFunctionOptions
  Permissions : List Exporter
  EventSourceMappings : List CreateEventSourceMappingInput

/-- The permission loop of `LambdaAWSInfo.export` (lines 584-589): run
each exporter in declaration order, returning the first error. -/
def runPermissions : List Exporter → JVal → Resources → Resources × Option String
  | [], _, res => (res, none)
  | p :: rest, ref, res =>
    match p ref res with
    | (res', .error e) => (res', some e)
    | (res', .ok _) => runPermissions rest ref res'

/-- Logical name of an event-source-mapping resource: hash of the ARN,
the little-endian batch size, and the starting position (lines 607-611). -/
def esMappingResourceName (arn : String) (batchSize : Int) (startingPosition : String) : String :=
  "LambdaES" ++ sha1Hex (utf8 arn ++ leBytes64 (int64Bits batchSize) ++ utf8 startingPosition)

/-- The `AWS::Lambda::EventSourceMapping` resource value (lines
593-606): `Enabled` appears only when its pointer is non-nil. -/
def esPrimaryResource (arn sp : String) (bs : Int) (enabled : Option Bool) (ref : JVal) : JVal :=
  let properties : JObj :=
    [("EventSourceArn", .str arn),
     ("FunctionName", ref),
     ("StartingPosition", .str sp),
     ("BatchSize", .num bs)]
  let properties := match enabled with
    | some b => properties ++ [("Enabled", JVal.jbool b)]
    | none => properties
  .obj [("Type", .str "AWS::Lambda::EventSourceMapping"), ("Properties", .obj properties)]

/-- The event-source-mapping loop of `LambdaAWSInfo.export` (lines
592-613); `none` models the nil-pointer panic on a missing field. -/
def runESMappings : List CreateEventSourceMappingInput → JVal → Resources → Option Resources
  | [], _, res => some res
  | m :: rest, ref, res =>
    match m.EventSourceArn, m.StartingPosition, m.BatchSize with
    | some arn, some sp, some bs =>
      runESMappings rest ref
        (upsertA (esMappingResourceName arn bs sp) (esPrimaryResource arn sp bs m.Enabled ref) res)
    | _, _, _ => none

/-- The function resource's logical name: `Lambda` plus the hash of the
handler identity (lines 573-575). -/
def lambdaResourceName (fnName : String) : String := "Lambda" ++ sha1Hex (utf8 fnName)

/-- The `AWS::Lambda::Function` resource value (lines 554-569). -/
def functionPrimaryResource (S3Bucket S3Key : String) (opts : LambdaFunctionOptions)
    (fnName : String) (roleVal : JVal) (dependsOn : List String) : JVal :=
  .obj
    [("Type", .str "AWS::Lambda::Function"),
     ("Properties", .obj
       [("Code", .obj [("S3Bucket", .str S3Bucket), ("S3Key", .str S3Key)]),
        ("Description", .str opts.Description),
        ("Handler", .str ("index." ++ sanitizedName fnName)),
        ("MemorySize", .num opts.MemorySize),
        ("Role", roleVal),
        ("Runtime", .str "nodejs"),
        ("Timeout", .num opts.Timeout)]),
     ("DependsOn", .arr (dependsOn.map .str))]

/-- The `Fn::GetAtt` reference to the function's ARN (lines 579-581). -/
def lambdaFunctionAttr (resourceName : String) : JVal :=
  .obj [("Fn::GetAtt", .arr [.str resourceName, .str "Arn"])]

/-- `LambdaAWSInfo.export` (lines 535-615). The outer `none` models the
nil-pointer panic when `RoleName` is empty and no `RoleDefinition` is
set; otherwise the result carries the accumulator as left by the run
(the caller's map is mutated in place) and the error, if any, from the
permission loop. -/
def LambdaAWSInfo.exportInfo (info : LambdaAWSInfo) (S3Bucket S3Key : String)
    (roleNameMap : List (String × JVal)) (resources : Resources) :
    Option (Resources × Option String) :=
  let roleStep : Option (String × List String) :=
    if info.RoleName = "" then
      info.RoleDefinition.map fun rd => (rd.logicalName, [rd.logicalName])
    else some (info.RoleName, [])
  match roleStep with
  | none => none
  | some (iamRoleArnName, dependsOn) =>
    let primaryResource := functionPrimaryResource S3Bucket S3Key info.Options
      info.lambdaFnName ((alookup iamRoleArnName roleNameMap).getD .null) dependsOn
    let resourceName := lambdaResourceName info.lambdaFnName
    let resources1 := upsertA resourceName primaryResource resources
    let functionAttr := lambdaFunctionAttr resourceName
    match runPermissions info.Permissions functionAttr resources1 with
    | (res2, some e) => some (res2, some e)
    | (res2, none) =>
      match runESMappings info.EventSourceMappings functionAttr res2 with
      | none => none
      | some res3 => some (res3, none)

/-- Modelled from the spec: the assembler's role-resource creation step.
The provisioning driver that materializes `AWS::IAM::Role` resources from
`IAMRoleDefinition.logicalName` and `rolePolicy` is not under `src/`;
§4.3 specifies it creates the role resource "only if no resource with
that logical id exists yet". -/
def ensureRoleResource (roleResources : Resources) (rd : IAMRoleDefinition)
    (mappings : List CreateEventSourceMappingInput)
    (t : List (String × JObj)) (randValue : Int) :
    Option (Resources × List (String × JObj)) :=
  match alookup rd.logicalName roleResources with
  | some _ => some (roleResources, t)
  | none =>
    (rd.rolePolicy mappings t randValue).map (fun r =>
      (upsertA rd.logicalName r.1 roleResources, r.2))

/-! ### NodeJS custom-resource runtime model
(`resources/provision/apigateway.js`)

The runtime's async pipeline is fully serialized (a waterfall of stages,
a concurrency-1 queue for the tree walk, `eachSeries`/dependency-chained
`auto` tasks inside), so it is embedded as a deterministic function of
an environment `Env` that fixes every remote call's response. Each
function also returns, in order, the remote calls it performed.
`Except.error e` models a callback invoked with an `Error` whose
string form is `e`; an `Error` object is truthy regardless of message. -/

/-- JavaScript `a || b` for an optional string (`undefined` and `""` are
falsy). -/
def jsOrStr (o : Option String) (d : String) : String :=
  match o with
  | some s => if s = "" then d else s
  | none => d

/-- JavaScript `a || b` with an optional fallback. -/
def jsOrOpt (o d : Option String) : Option String :=
  match o with
  | some s => if s = "" then d else some s
  | none => d

/-- JavaScript `a || undefined`. -/
def jsOrUndef (o : Option String) : Option String :=
  match o with
  | some s => if s = "" then none else some s
  | none => none

/-- JavaScript truthiness of an optional string. -/
def strTruthy (o : Option String) : Bool :=
  match o with
  | some s => if s = "" then false else true
  | none => false

/-- `statementID`: `Sparta` plus the hex SHA1 of the lambda ARN. -/
def statementID (lambdaArn : String) : String :=
  "Sparta" ++ sha1Hex (utf8 lambdaArn)

/-- `lamdbdaURI` (sic): the API Gateway invocation URI for a lambda ARN;
an undefined ARN is coerced to the string `undefined` by `util.format`. -/
def lamdbdaURI (region : String) (lambdaArn : Option String) : String :=
  "arn:aws:apigateway:" ++ region ++ ":lambda:path/2015-03-31/functions/" ++
    (match lambdaArn with | some a => a | none => "undefined") ++ "/invocations"

/-- Prefix match of a character pattern. -/
def startsWithChars : List Char → List Char → Bool
  | [], _ => true
  | _ :: _, [] => false
  | p :: ps, c :: cs => p = c && startsWithChars ps cs

/-- Does `pat` occur starting at or after the current position, with no
newline before the occurrence starts? (JS `.` does not match `\n`.) -/
def occursNoNewline (pat : List Char) : List Char → Bool
  | [] => startsWithChars pat []
  | c :: rest =>
    startsWithChars pat (c :: rest) || (!(c = '\n') && occursNoNewline pat rest)

/-- `/p1.*p2/.test(s)`: `p1` occurs, and `p2` occurs at or after its
end with no intervening newline. -/
def reSearch (p1 p2 : List Char) : List Char → Bool
  | [] => startsWithChars p1 [] && occursNoNewline p2 []
  | c :: rest =>
    (startsWithChars p1 (c :: rest) && occursNoNewline p2 ((c :: rest).drop p1.length)) ||
    reSearch p1 p2 rest

/-- `RE_STATEMENT_ALREADY_EXISTS = /ResourceConflictException.*already exists/`. -/
def reStatementAlreadyExists (s : String) : Bool :=
  reSearch "ResourceConflictException".toList "already exists".toList s.toList

/-- JS value that is either a boolean, a string, or undefined
(`APIKeyRequired` arrives as either type from the template). -/
inductive BoolOrStr where
  | b (v : Bool)
  | s (v : String)
  | undef

/-- One `MethodDefinition`. -/
structure MethodDef where
  HTTPMethod : String
  AuthorizationType : Option String
  APIKeyRequired : BoolOrStr

/-- One entry of a node's `APIResources` mapping. -/
structure APIResource where
  LambdaArn : Option String
  Methods : List (String × MethodDef)

/-- The `APIResourceTree`: path component, API resources, children. -/
inductive ResourceTree where
  | node (PathComponent : Option String) (APIResources : List (String × APIResource))
      (Children : List (String × ResourceTree))

def ResourceTree.path : ResourceTree → Option String
  | .node p _ _ => p

def ResourceTree.apiResources : ResourceTree → List (String × APIResource)
  | .node _ a _ => a

def ResourceTree.children : ResourceTree → List (String × ResourceTree)
  | .node _ _ c => c

/-- Deployment stage description (`Stage` properties). -/
structure StageDef where
  Name : Option String
  CacheClusterEnabled : Option String
  CacheClusterSize : Option String
  Description : Option String
  Variables : Option (List (String × String))

/-- The `API` resource properties. -/
structure APIProps where
  Name : Option String
  CloneFrom : Option String
  Description : Option String
  Resources : Option ResourceTree
  Stage : Option StageDef

/-- `event.ResourceProperties` / `event.OldResourceProperties`. -/
structure CFProps where
  API : Option APIProps

mutual
/-- `accumulatedStackLambdas`: collect every truthy `LambdaArn` of the
node's API resources, then recurse into the children in order. -/
def accumulatedStackLambdas : ResourceTree → List String
  | .node _ apiRes children =>
    apiRes.filterMap (fun kv =>
      match kv.2.LambdaArn with
      | some a => if a = "" then none else some a
      | none => none)
    ++ accumulatedStackLambdasList children
/-- The child-map half of `accumulatedStackLambdas`. -/
def accumulatedStackLambdasList : List (String × ResourceTree) → List String
  | [] => []
  | (_, t) :: rest => accumulatedStackLambdas t ++ accumulatedStackLambdasList rest
end

/-- A remote control-plane call, with the parameters the runtime sends. -/
inductive Call where
  | getRestApis
  | deleteRestApi (restApiId : String)
  | removePermission (functionName statementId : String)
  | createRestApi (name cloneFrom description : Option String)
  | getResources (restApiId : String)
  | createResource (parentId : String) (pathPart : Option String) (restApiId : String)
  | putMethod (restApiId : String) (resourceId : Option String) (httpMethod : String)
      (authorizationType : String) (apiKeyRequired : Bool)
  | putMethodResponse (restApiId : String) (resourceId : Option String)
      (httpMethod statusCode : String)
  | putIntegration (restApiId : String) (resourceId : Option String) (httpMethod uri : String)
  | putIntegrationResponse (restApiId : String) (resourceId : Option String)
      (httpMethod statusCode : String)
  | addPermission (functionName statementId : String)
  | getPolicy (functionName : String)
  | getMethod (restApiId : String) (resourceId : Option String) (httpMethod : String)
  | createDeployment (restApiId stageName : String) (cacheClusterEnabled : Bool)
      (cacheClusterSize : Option String) (stageDescription : String)
      (vars : List (String × String))
deriving DecidableEq

/-- A parsed lambda policy: statement key to `Sid`. -/
abbrev PolicyObj := List (String × String)

/-- `rolePolicyCache`: lambda ARN to parsed policy. -/
abbrev PolicyCache := List (String × PolicyObj)

/-- The remote environment: a fixed response for every possible call.
`getPolicy` returns the raw fetch outcome and, when it succeeds, the
outcome of `JSON.parse` on the returned policy text. -/
structure Env where
  region : String
  getRestApis : Except String (List (String × String))
  deleteRestApi : String → Except String Unit
  removePermission : String → String → Except String Unit
  createRestApi : Option String → Option String → Option String → Except String String
  getResources : String → Except String (List (String × String))
  createResource : String → Option String → String → Except String String
  putMethod : String → Option String → String → String → Bool → Except String Unit
  putMethodResponse : String → Option String → String → String → Except String Unit
  putIntegration : String → Option String → String → String → Except String Unit
  putIntegrationResponse : String → Option String → String → String → Except String Unit
  addPermission : String → String → Except String Unit
  getPolicy : String → Except String (Except String PolicyObj)
  getMethod : String → Option String → String → Except String Unit
  createDeployment : String → String → Bool → Option String → String →
      List (String × String) → Except String Unit

/-- `ensureLambdaPermissionsDeleted`: issue one `removePermission` per
ARN with the recomputed statement id; every outcome is logged and the
series continues (`iterCB(null, null)`), so only the call list matters. -/
def ensureLambdaPermissionsDeleted (arns : List String) : List Call :=
  arns.map (fun a => Call.removePermission a (statementID a))

/-- The lambda ARNs recovered from the OLD properties
(`oldAPIProps.Resources || []`). -/
def oldLambdaArns (oldProps : CFProps) : List String :=
  match oldProps.API.bind (·.Resources) with
  | some t => accumulatedStackLambdas t
  | none => []

/-- `ensureAPIDeletedTask`: list the APIs, delete the one matching by
name if present, then best-effort revoke permissions recomputed from the
OLD properties. The waterfall terminus ignores every error
(`callback(null, true)`), so only the call list is returned. -/
def ensureAPIDeletedTask (env : Env) (props oldProps : CFProps) : List Call :=
  match env.getRestApis with
  | .error _ => [Call.getRestApis]
  | .ok items =>
    let apiName := props.API.bind (·.Name)
    match items.find? (fun it => apiName == some it.1) with
    | some m =>
      match env.deleteRestApi m.2 with
      | .error _ => [Call.getRestApis, Call.deleteRestApi m.2]
      | .ok _ =>
        Call.getRestApis :: Call.deleteRestApi m.2 ::
          ensureLambdaPermissionsDeleted (oldLambdaArns oldProps)
    | none =>
      Call.getRestApis :: ensureLambdaPermissionsDeleted (oldLambdaArns oldProps)

/-- The `createRestApi` call of `ensureAPICreatedTask`. -/
def createRestApiCall (props : CFProps) : Call :=
  .createRestApi (props.API.bind (·.Name)) (jsOrUndef (props.API.bind (·.CloneFrom)))
    (jsOrUndef (props.API.bind (·.Description)))

/-- `ensureAPICreatedTask` swallows errors (`callback(null,
createResults)`), so downstream stages observe only the optional new API
id. -/
def apiIdOf (env : Env) (props : CFProps) : Option String :=
  match env.createRestApi (props.API.bind (·.Name)) (jsOrUndef (props.API.bind (·.CloneFrom)))
      (jsOrUndef (props.API.bind (·.Description))) with
  | .ok r => some r
  | .error _ => none

/-- The `cache` task and terminus of `ensureLambdaPermissionCreated`:
fetch the target's policy and cache the parse result. -/
def permCacheRefresh (env : Env) (lambdaArn : String) (cache : PolicyCache) :
    (PolicyCache × Except String Unit) × List Call :=
  match env.getPolicy lambdaArn with
  | .error e => ((cache, .error e), [Call.getPolicy lambdaArn])
  | .ok (.error eParse) => ((cache, .error eParse), [Call.getPolicy lambdaArn])
  | .ok (.ok policy) => ((upsertA lambdaArn policy cache, .ok ()), [Call.getPolicy lambdaArn])

/-- `ensureLambdaPermissionCreated`: skip when the per-run cache already
holds a statement with the recomputed `Sid`; otherwise call
`addPermission`, suppressing a rejection matching
`RE_STATEMENT_ALREADY_EXISTS`, and on success refresh the cache. An
undefined ARN makes `crypto.update` throw, caught by the caller. -/
def ensureLambdaPermissionCreated (env : Env) (lambdaArn : Option String)
    (cache : PolicyCache) : (PolicyCache × Except String Unit) × List Call :=
  match lambdaArn with
  | none => ((cache, .error "TypeError: Not a string or buffer"), [])
  | some arn =>
    let sid := statementID arn
    let cachedValues := (alookup arn cache).getD []
    if (cachedValues.find? (fun kv => kv.2 == sid)).isSome then
      ((cache, .ok ()), [])
    else
      match env.addPermission arn sid with
      | .ok _ =>
        let r := permCacheRefresh env arn cache
        (r.1, Call.addPermission arn sid :: r.2)
      | .error e =>
        if reStatementAlreadyExists e then
          let r := permCacheRefresh env arn cache
          (r.1, Call.addPermission arn sid :: r.2)
        else
          ((cache, .error e), [Call.addPermission arn sid])

/-- `'true' === methodDef.APIKeyRequired` unless already boolean. -/
def apiKeyRequiredOf : BoolOrStr → Bool
  | .b v => v
  | .s v => v == "true"
  | .undef => false

/-- `methodCreationIterator`: the strict dependency-chained pipeline
putMethod, putMethodResponse, putIntegration, putIntegrationResponse,
addPermission, getMethod; the first error stops the chain. -/
def methodCreationIterator (env : Env) (restApiId : String) (resourceId : Option String)
    (lambdaArn : Option String) (methodDef : MethodDef) (cache : PolicyCache) :
    (PolicyCache × Except String Unit) × List Call :=
  let m := methodDef.HTTPMethod
  let auth := jsOrStr methodDef.AuthorizationType "NONE"
  let keyReq := apiKeyRequiredOf methodDef.APIKeyRequired
  let c1 := Call.putMethod restApiId resourceId m auth keyReq
  match env.putMethod restApiId resourceId m auth keyReq with
  | .error e => ((cache, .error e), [c1])
  | .ok _ =>
    let c2 := Call.putMethodResponse restApiId resourceId m "200"
    match env.putMethodResponse restApiId resourceId m "200" with
    | .error e => ((cache, .error e), [c1, c2])
    | .ok _ =>
      let uri := lamdbdaURI env.region lambdaArn
      let c3 := Call.putIntegration restApiId resourceId m uri
      match env.putIntegration restApiId resourceId m uri with
      | .error e => ((cache, .error e), [c1, c2, c3])
      | .ok _ =>
        let c4 := Call.putIntegrationResponse restApiId resourceId m "200"
        match env.putIntegrationResponse restApiId resourceId m "200" with
        | .error e => ((cache, .error e), [c1, c2, c3, c4])
        | .ok _ =>
          let r := ensureLambdaPermissionCreated env lambdaArn cache
          match r.1.2 with
          | .error e => ((r.1.1, .error e), [c1, c2, c3, c4] ++ r.2)
          | .ok _ =>
            let c6 := Call.getMethod restApiId resourceId m
            match env.getMethod restApiId resourceId m with
            | .error e => ((r.1.1, .error e), [c1, c2, c3, c4] ++ r.2 ++ [c6])
            | .ok _ => ((r.1.1, .ok ()), [c1, c2, c3, c4] ++ r.2 ++ [c6])

/-- `ensureAPIResourceMethodsCreated`: run the method pipeline for each
HTTP method of one API definition in series, stopping at the first
error. -/
def ensureAPIResourceMethodsCreated (env : Env) (restApiId : String)
    (resourceId : Option String) (lambdaArn : Option String) :
    List (String × MethodDef) → PolicyCache → (PolicyCache × Except String Unit) × List Call
  | [], c => ((c, .ok ()), [])
  | (_, md) :: rest, c =>
    let r := methodCreationIterator env restApiId resourceId lambdaArn md c
    match r.1.2 with
    | .error e => ((r.1.1, .error e), r.2)
    | .ok _ =>
      let r2 := ensureAPIResourceMethodsCreated env restApiId resourceId lambdaArn rest r.1.1
      (r2.1, r.2 ++ r2.2)

/-- The `createMethods` sub-task: iterate the node's API resources in
series. -/
def processAPIResources (env : Env) (restApiId : String) (resourceId : Option String) :
    List (String × APIResource) → PolicyCache → (PolicyCache × Except String Unit) × List Call
  | [], c => ((c, .ok ()), [])
  | (_, ar) :: rest, c =>
    let r := ensureAPIResourceMethodsCreated env restApiId resourceId ar.LambdaArn ar.Methods c
    match r.1.2 with
    | .error e => ((r.1.1, .error e), r.2)
    | .ok _ =>
      let r2 := processAPIResources env restApiId resourceId rest r.1.1
      (r2.1, r.2 ++ r2.2)

mutual
/-- Node count of a resource tree (used as queue fuel). -/
def treeNodes : ResourceTree → Nat
  | .node _ _ children => 1 + treeNodesList children
/-- Node count of a child map. -/
def treeNodesList : List (String × ResourceTree) → Nat
  | [] => 0
  | (_, t) :: rest => treeNodes t + treeNodesList rest
end

/-- `processResourceEntry`, the queue worker: with a truthy parent id,
create the child resource for this node's path component; otherwise (the
root) reuse `resourceIndex["/"]` without any remote call. Then create the
node's methods against the resolved resource id. Returns the id handed
to the node's children on success. -/
def processResourceEntry (env : Env) (restApiId : String)
    (resourceIndex : List (String × String)) (t : ResourceTree)
    (parentId : Option String) (cache : PolicyCache) :
    (Except String (Option String) × PolicyCache) × List Call :=
  let crStep : Except String (Option String) × List Call :=
    if strTruthy parentId then
      match env.createResource (parentId.getD "") t.path restApiId with
      | .ok cid => (.ok (some cid), [Call.createResource (parentId.getD "") t.path restApiId])
      | .error e => (.error e, [Call.createResource (parentId.getD "") t.path restApiId])
    else
      (.ok (alookup "/" resourceIndex), [])
  match crStep.1 with
  | .error e => ((.error e, cache), crStep.2)
  | .ok crId =>
    let resourceId := jsOrOpt crId (alookup "/" resourceIndex)
    let r := processAPIResources env restApiId resourceId t.apiResources cache
    match r.1.2 with
    | .error e => ((.error e, r.1.1), crStep.2 ++ r.2)
    | .ok _ => ((.ok crId, r.1.1), crStep.2 ++ r.2)

/-- The concurrency-1 `async.queue` of the tree walk. `workerError` is
assigned the task's outcome after every task (`workerError = e;`), a
failed task does not enqueue its children, and the drain callback
reports whatever `workerError` holds once the queue empties. Fuel bounds
the number of processed tasks; the caller supplies more fuel than the
tree has nodes. -/
def walkLoop (env : Env) (restApiId : String) (resourceIndex : List (String × String)) :
    Nat → List (ResourceTree × Option String) → Option String → PolicyCache →
    (Option String × PolicyCache) × List Call
  | 0, _, we, c => ((we, c), [])
  | _ + 1, [], we, c => ((we, c), [])
  | fuel + 1, (t, pid) :: rest, _, c =>
    let r := processResourceEntry env restApiId resourceIndex t pid c
    match r.1.1 with
    | .error e =>
      let r2 := walkLoop env restApiId resourceIndex fuel rest (some e) r.1.2
      (r2.1, r.2 ++ r2.2)
    | .ok crId =>
      let newTasks := t.children.map (fun kv => (kv.2, crId))
      let r2 := walkLoop env restApiId resourceIndex fuel (rest ++ newTasks) none r.1.2
      (r2.1, r.2 ++ r2.2)

/-- `ensureResourcesCreatedTask`: fetch the current resources, build the
path-to-id index, and run the serialized tree walk from the root with a
null parent id. -/
def ensureResourcesCreatedTask (env : Env) (apiId : Option String) (props : CFProps) :
    Except String Unit × List Call :=
  let restApiId := jsOrStr apiId ""
  match env.getResources restApiId with
  | .error e => (.error e, [Call.getResources restApiId])
  | .ok items =>
    let resourceIndex := items.foldl (fun m it => upsertA it.1 it.2 m) []
    let rootDef := (props.API.bind (·.Resources)).getD (.node none [] [])
    let r := walkLoop env restApiId resourceIndex (treeNodes rootDef + 1) [(rootDef, none)] none []
    ((match r.1.1 with | some e => .error e | none => .ok ()),
     Call.getResources restApiId :: r.2)

/-- `ensureDeploymentTask`: one `createDeployment` carrying the stage
fields when `Stage.Name` is truthy, otherwise no call. -/
def ensureDeploymentTask (env : Env) (apiId : Option String) (props : CFProps) :
    Except String Unit × List Call :=
  let restApiId := jsOrStr apiId ""
  let stageDefinition := props.API.bind (·.Stage)
  let nm := stageDefinition.bind (·.Name)
  if strTruthy nm then
    let cce := (stageDefinition.bind (·.CacheClusterEnabled)) == some "true"
    let ccs := match stageDefinition.bind (·.CacheClusterSize) with
      | some s => if s = "" then none else some s
      | none => none
    let desc := jsOrStr (stageDefinition.bind (·.Description)) ""
    let vars := ((stageDefinition.bind (·.Variables)).getD [])
    match env.createDeployment restApiId (nm.getD "") cce ccs desc vars with
    | .error e => (.error e, [Call.createDeployment restApiId (nm.getD "") cce ccs desc vars])
    | .ok _ => (.ok (), [Call.createDeployment restApiId (nm.getD "") cce ccs desc vars])
  else (.ok (), [])

/-- Request operation. -/
inductive RequestType where
  | Create
  | Update
  | Delete
deriving DecidableEq

/-- Wire-protocol terminal status. -/
inductive Status where
  | SUCCESS
  | FAILED
deriving DecidableEq

/-- `exports.handler`: the linear stage chain ensure-deleted,
ensure-created, ensure-resources, ensure-deployment (the latter three
only outside Delete); the response status is FAILED exactly when the
`async.auto` run surfaces an error, and the delete and create stages
never surface one. -/
def handler (env : Env) (requestType : RequestType) (props : Option CFProps)
    (oldProps : Option CFProps) : Status × List Call :=
  match props with
  | none => (.SUCCESS, [])
  | some p =>
    let dCalls := ensureAPIDeletedTask env p (oldProps.getD ⟨none⟩)
    match requestType with
    | .Delete => (.SUCCESS, dCalls)
    | _ =>
      let apiId := apiIdOf env p
      let r := ensureResourcesCreatedTask env apiId p
      match r.1 with
      | .error _ => (.FAILED, dCalls ++ createRestApiCall p :: r.2)
      | .ok _ =>
        let d := ensureDeploymentTask env apiId p
        match d.1 with
        | .error _ => (.FAILED, dCalls ++ createRestApiCall p :: r.2 ++ d.2)
        | .ok _ => (.SUCCESS, dCalls ++ createRestApiCall p :: r.2 ++ d.2)

/-! ### Association-list lemmas -/

theorem alookup_upsertA_self {α : Type} (k : String) (v : α) (l : List (String × α)) :
    alookup k (upsertA k v l) = some v := by
  induction l with
  | nil => simp [upsertA, alookup]
  | cons h t ih =>
    by_cases hk : h.1 = k
    · simp [upsertA, alookup, hk]
    · simp [upsertA, alookup, hk, ih]

theorem alookup_upsertA_ne {α : Type} (k k' : String) (hne : k ≠ k') (v : α)
    (l : List (String × α)) : alookup k (upsertA k' v l) = alookup k l := by
  induction l with
  | nil => simp [upsertA, alookup, Ne.symm hne]
  | cons h t ih =>
    by_cases hk : h.1 = k'
    · have hk2 : h.1 ≠ k := by rw [hk]; exact Ne.symm hne
      simp [upsertA, alookup, hk, hk2, Ne.symm hne]
    · by_cases hk2 : h.1 = k <;> simp [upsertA, alookup, hk, hk2, hne, ih]

theorem upsertA_keys_congr {α β : Type} (k : String) (v : α) (w : β) :
    ∀ {l : List (String × α)} {l' : List (String × β)},
      l.map Prod.fst = l'.map Prod.fst →
      (upsertA k v l).map Prod.fst = (upsertA k w l').map Prod.fst := by
  intro l
  induction l with
  | nil =>
    intro l' h
    have : l' = [] := by
      cases l' with
      | nil => rfl
      | cons a t => simp at h
    subst this
    simp [upsertA]
  | cons a t ih =>
    intro l' h
    cases l' with
    | nil => simp at h
    | cons b t' =>
      simp only [List.map_cons, List.cons.injEq] at h
      obtain ⟨h1, h2⟩ := h
      by_cases hk : a.1 = k
      · have hk' : b.1 = k := by rw [← h1, hk]
        simp [upsertA, hk, hk', h2]
      · have hk' : ¬b.1 = k := by rw [← h1]; exact hk
        simp [upsertA, hk, hk', h1, ih h2]

/-! ### Claim theorems -/

/-- Concrete kinesis event-source mappings used in evaluations. -/
def kinesisMappingOne : CreateEventSourceMappingInput :=
  ⟨some "arn:aws:kinesis:us-east-1:1:stream/one", some "TRIM_HORIZON", some 10, none⟩

/-- Second kinesis mapping with a different stream ARN. -/
def kinesisMappingTwo : CreateEventSourceMappingInput :=
  ⟨some "arn:aws:kinesis:us-east-1:1:stream/two", some "TRIM_HORIZON", some 10, none⟩

/-- C10: `IAMRoleDefinition.rolePolicy` is claimed total: for every
`EventSourceArn`, including one whose colon-split has exactly two
segments such as `"a:b"`, the service-namespace lookup never reads an
out-of-range index and a policy document is returned. The code's guard
`len(arnParts) >= 2` admits the two-segment case and then reads
`arnParts[2]`, an out-of-range index: evaluated at the mapping
`"a:b"`, both the statement synthesis and the full `rolePolicy` abort
(modelled as `none`) instead of returning a document. -/
theorem c10_rolePolicy_panic_eval :
    resolvedStatements [] [⟨some "a:b", none, none, none⟩] commonIAMStatements = none ∧
    IAMRoleDefinition.rolePolicy ⟨[]⟩ [⟨some "a:b", none, none, none⟩]
      commonIAMStatements 0 = none ∧
    (resolvedStatements [] [⟨some "a", none, none, none⟩] commonIAMStatements).isSome =
      true :=
  ⟨rfl, rfl, rfl⟩

/-- C2: each event-source mapping of a known service is claimed to
contribute exactly one statement whose `Resource` equals that mapping's
own ARN, in particular for two same-service mappings with different ARNs
in one list. Evaluating `rolePolicy`'s statement synthesis on two
kinesis mappings (streams `one` and `two`): because
`append(statements, serviceStatements)` stores the shared template map
and `statements[len-1]["Resource"] = arn` mutates it, both appended
statements end carrying the second mapping's ARN `stream/two`; no
statement scoped to `stream/one` exists. -/
theorem c2_event_source_aliasing_eval :
    (resolvedStatements [] [kinesisMappingOne, kinesisMappingTwo]
        commonIAMStatements).map (fun l => l.map (alookup "Resource")) =
      some [some (.str "arn:aws:logs:*:*:*"),
            some (.str "arn:aws:kinesis:us-east-1:1:stream/two"),
            some (.str "arn:aws:kinesis:us-east-1:1:stream/two")] := rfl

/-- C3 counterexample: the claim asserts that two definitions whose
resolved privilege sets differ produce distinct role logical ids. Two
definitions with the same (empty) explicit privilege list, one attached
to no event-source mapping and one to a kinesis mapping, have resolved
privilege sets of different sizes (1 vs 2 statements) yet the same
role logical id, since `logicalName` hashes only `Privileges`. -/
theorem c3_counterexample :
    IAMRoleDefinition.logicalName ⟨[]⟩ = IAMRoleDefinition.logicalName ⟨[]⟩ ∧
    (resolvedStatements [] [] commonIAMStatements).map List.length = some 1 ∧
    (resolvedStatements [] [kinesisMappingOne] commonIAMStatements).map List.length =
      some 2 :=
  ⟨rfl, rfl, rfl⟩

/-- C3 amended: the role logical id is content-addressable over the
explicit privilege list only: `logicalName` is `IAMRole` plus the hash
of the formatted `Privileges` slice, independent of any event-source
mapping, and under the spec's create-once rule a second definition with
the same privilege list collapses onto the already-created role
resource (the accumulator is returned unchanged), whatever its
mappings. -/
theorem c3_role_dedup_explicit_privileges :
    ∀ (privs : List IAMRolePrivilege) (ms1 ms2 : List CreateEventSourceMappingInput)
      (t : List (String × JObj)) (rv1 rv2 : Int),
      IAMRoleDefinition.logicalName ⟨privs⟩ =
        "IAMRole" ++ sha1Hex (utf8 (goFmtPrivileges privs)) ∧
      (ensureRoleResource [] ⟨privs⟩ ms1 t rv1).map
          (fun r => ensureRoleResource r.1 ⟨privs⟩ ms2 r.2 rv2) =
        (ensureRoleResource [] ⟨privs⟩ ms1 t rv1).map (fun r => some r) := by
  intro privs ms1 ms2 t rv1 rv2
  refine ⟨rfl, ?_⟩
  show (ensureRoleResource [] ⟨privs⟩ ms1 t rv1).map _ =
    (ensureRoleResource [] ⟨privs⟩ ms1 t rv1).map _
  rw [ensureRoleResource]
  simp only [alookup]
  cases hpol : IAMRoleDefinition.rolePolicy ⟨privs⟩ ms1 t rv1 with
  | none => simp
  | some r =>
    simp [ensureRoleResource, alookup_upsertA_self]

/-! ### C1 support: logical-name distinctness and loop invariants -/

/-- The `Direct`-grant exporters of a list of (principal, base) pairs. -/
def permExps (perms : List (String × BasePermission)) : List Exporter :=
  perms.map (fun pb => LambdaPermission.exporter ⟨pb.2, pb.1⟩)

/-- Event-source mappings with every pointer field populated. -/
def mkESMappings (l : List (String × Int × String × Option Bool)) :
    List CreateEventSourceMappingInput :=
  l.map (fun x => ⟨some x.1, some x.2.2.1, some x.2.1, x.2.2.2⟩)

/-- `DependsOn` field of a resource value. -/
def dependsOnOf (v : JVal) : Option JVal :=
  match v with
  | .obj l => alookup "DependsOn" l
  | _ => none

theorem lambdaName_ne_permName (f principal : String) (bp : BasePermission) :
    lambdaResourceName f ≠ permResourceName principal bp := by
  intro h
  have hlen := congrArg String.length h
  rw [lambdaResourceName, permResourceName] at hlen
  rw [String.length_append, String.length_append, sha1Hex_length, sha1Hex_length] at hlen
  have h6 : ("Lambda" : String).length = 6 := rfl
  have h10 : ("LambdaPerm" : String).length = 10 := rfl
  omega

theorem lambdaName_ne_esName (f a : String) (b : Int) (s : String) :
    lambdaResourceName f ≠ esMappingResourceName a b s := by
  intro h
  have hlen := congrArg String.length h
  rw [lambdaResourceName, esMappingResourceName] at hlen
  rw [String.length_append, String.length_append, sha1Hex_length, sha1Hex_length] at hlen
  have h6 : ("Lambda" : String).length = 6 := rfl
  have h8 : ("LambdaES" : String).length = 8 := rfl
  omega

theorem runPermissions_permExps (ref : JVal) (key : String)
    (hkey : ∀ pr bp, key ≠ permResourceName pr bp) :
    ∀ (perms : List (String × BasePermission)) (res res' : Resources),
      res.map Prod.fst = res'.map Prod.fst →
      (runPermissions (permExps perms) ref res).2 = none ∧
      (runPermissions (permExps perms) ref res').2 = none ∧
      (runPermissions (permExps perms) ref res).1.map Prod.fst =
        (runPermissions (permExps perms) ref res').1.map Prod.fst ∧
      alookup key (runPermissions (permExps perms) ref res).1 = alookup key res := by
  intro perms
  induction perms with
  | nil =>
    intro res res' h
    simp [permExps, runPermissions, h]
  | cons pb t ih =>
    intro res res' h
    have hstep : ∀ (r : Resources),
        runPermissions (permExps (pb :: t)) ref r =
          runPermissions (permExps t) ref
            (upsertA (permResourceName pb.1 pb.2)
              (permPrimaryResource pb.2 pb.1 ref) r) := by
      intro r
      simp [permExps, runPermissions, LambdaPermission.exporter,
        BasePermission.exportPermission]
    rw [hstep res, hstep res']
    obtain ⟨e1, e2, keq, lk⟩ :=
      ih (upsertA (permResourceName pb.1 pb.2) (permPrimaryResource pb.2 pb.1 ref) res)
        (upsertA (permResourceName pb.1 pb.2) (permPrimaryResource pb.2 pb.1 ref) res')
        (upsertA_keys_congr _ _ _ h)
    exact ⟨e1, e2, keq, by rw [lk, alookup_upsertA_ne _ _ (hkey pb.1 pb.2)]⟩

theorem runESMappings_mk (ref : JVal) (key : String)
    (hkey : ∀ a b s, key ≠ esMappingResourceName a b s) :
    ∀ (esms : List (String × Int × String × Option Bool)) (res res' : Resources),
      res.map Prod.fst = res'.map Prod.fst →
      ∃ r r', runESMappings (mkESMappings esms) ref res = some r ∧
        runESMappings (mkESMappings esms) ref res' = some r' ∧
        r.map Prod.fst = r'.map Prod.fst ∧
        alookup key r = alookup key res := by
  intro esms
  induction esms with
  | nil =>
    intro res res' h
    exact ⟨res, res', rfl, rfl, h, rfl⟩
  | cons x t ih =>
    intro res res' h
    have hstep : ∀ (r : Resources),
        runESMappings (mkESMappings (x :: t)) ref r =
          runESMappings (mkESMappings t) ref
            (upsertA (esMappingResourceName x.1 x.2.1 x.2.2.1)
              (esPrimaryResource x.1 x.2.2.1 x.2.1 x.2.2.2 ref) r) := by
      intro r
      simp [mkESMappings, runESMappings]
    rw [hstep res, hstep res']
    obtain ⟨r, r', h1, h2, h3, h4⟩ :=
      ih (upsertA (esMappingResourceName x.1 x.2.1 x.2.2.1)
            (esPrimaryResource x.1 x.2.2.1 x.2.1 x.2.2.2 ref) res)
        (upsertA (esMappingResourceName x.1 x.2.1 x.2.2.1)
            (esPrimaryResource x.1 x.2.2.1 x.2.1 x.2.2.2 ref) res')
        (upsertA_keys_congr _ _ _ h)
    exact ⟨r, r', h1, h2, h3, by rw [h4, alookup_upsertA_ne _ _ (hkey _ _ _)]⟩

theorem exportInfo_inline_unfold (fnName : String) (privs : List IAMRolePrivilege)
    (opts : LambdaFunctionOptions) (Perms : List Exporter)
    (ESMs : List CreateEventSourceMappingInput) (b k : String)
    (rm : List (String × JVal)) (res0 : Resources) :
    LambdaAWSInfo.exportInfo ⟨fnName, "", some ⟨privs⟩, opts, Perms, ESMs⟩ b k rm res0 =
      match runPermissions Perms (lambdaFunctionAttr (lambdaResourceName fnName))
          (upsertA (lambdaResourceName fnName)
            (functionPrimaryResource b k opts fnName
              ((alookup (IAMRoleDefinition.logicalName ⟨privs⟩) rm).getD .null)
              [IAMRoleDefinition.logicalName ⟨privs⟩]) res0) with
      | (res2, some e) => some (res2, some e)
      | (res2, none) =>
        match runESMappings ESMs (lambdaFunctionAttr (lambdaResourceName fnName)) res2 with
        | none => none
        | some res3 => some (res3, none) := rfl

/-- C1: the three id derivations — the function resource's logical id
(hash of the handler identity), the inline role's logical id (hash of
the privilege set), and each grant's permission statement id (hash of
principal, source account, source ARN) — are deterministic functions of
those identity fields only. Two export runs of the same identity data
that differ in every other input (execution options, code location,
role ARN map) emit exactly the same logical ids; the function resource
depends on the privilege-determined role id; and `BasePermission.export`
returns a name depending only on the principal/account/ARN triple. -/
theorem c1_idempotent_naming :
    ∀ (fnName : String) (privs : List IAMRolePrivilege)
      (perms : List (String × BasePermission))
      (esms : List (String × Int × String × Option Bool))
      (opts opts' : LambdaFunctionOptions) (b b' k k' : String)
      (rm rm' : List (String × JVal)),
      ∃ res1 res2 : Resources,
        LambdaAWSInfo.exportInfo
            ⟨fnName, "", some ⟨privs⟩, opts, permExps perms, mkESMappings esms⟩
            b k rm [] = some (res1, none) ∧
        LambdaAWSInfo.exportInfo
            ⟨fnName, "", some ⟨privs⟩, opts', permExps perms, mkESMappings esms⟩
            b' k' rm' [] = some (res2, none) ∧
        res1.map Prod.fst = res2.map Prod.fst ∧
        (alookup (lambdaResourceName fnName) res1).bind dependsOnOf =
          some (.arr [.str (IAMRoleDefinition.logicalName ⟨privs⟩)]) ∧
        (∀ (principal : String) (bp : BasePermission) (ref : JVal) (res : Resources),
          (bp.exportPermission principal ref res).2 = permResourceName principal bp) := by
  intro fnName privs perms esms opts opts' b b' k k' rm rm'
  rw [exportInfo_inline_unfold, exportInfo_inline_unfold]
  obtain ⟨e1, e2, keq, lk⟩ :=
    runPermissions_permExps (lambdaFunctionAttr (lambdaResourceName fnName))
      (lambdaResourceName fnName) (fun pr bp => lambdaName_ne_permName fnName pr bp) perms
      (upsertA (lambdaResourceName fnName)
        (functionPrimaryResource b k opts fnName
          ((alookup (IAMRoleDefinition.logicalName ⟨privs⟩) rm).getD .null)
          [IAMRoleDefinition.logicalName ⟨privs⟩]) [])
      (upsertA (lambdaResourceName fnName)
        (functionPrimaryResource b' k' opts' fnName
          ((alookup (IAMRoleDefinition.logicalName ⟨privs⟩) rm').getD .null)
          [IAMRoleDefinition.logicalName ⟨privs⟩]) [])
      (by simp [upsertA])
  rcases hrp1 : runPermissions (permExps perms)
      (lambdaFunctionAttr (lambdaResourceName fnName))
      (upsertA (lambdaResourceName fnName)
        (functionPrimaryResource b k opts fnName
          ((alookup (IAMRoleDefinition.logicalName ⟨privs⟩) rm).getD .null)
          [IAMRoleDefinition.logicalName ⟨privs⟩]) []) with ⟨p1, pe1⟩
  rcases hrp2 : runPermissions (permExps perms)
      (lambdaFunctionAttr (lambdaResourceName fnName))
      (upsertA (lambdaResourceName fnName)
        (functionPrimaryResource b' k' opts' fnName
          ((alookup (IAMRoleDefinition.logicalName ⟨privs⟩) rm').getD .null)
          [IAMRoleDefinition.logicalName ⟨privs⟩]) []) with ⟨p2, pe2⟩
  rw [hrp1] at e1 keq lk
  rw [hrp2] at e2 keq
  simp only at e1 e2 keq lk
  subst e1
  subst e2
  obtain ⟨r, r', hr, hr', keq2, lk2⟩ :=
    runESMappings_mk (lambdaFunctionAttr (lambdaResourceName fnName))
      (lambdaResourceName fnName) (fun a bsz s => lambdaName_ne_esName fnName a bsz s)
      esms p1 p2 keq
  refine ⟨r, r', ?_, ?_, keq2, ?_, fun _ _ _ _ => rfl⟩
  · simp only [hrp1, hr]
  · simp only [hrp2, hr']
  · rw [lk2, lk, alookup_upsertA_self]
    simp [dependsOnOf, functionPrimaryResource, alookup]

/-! ### C9: abort behavior of the export loop -/

theorem runPermissions_append (l1 l2 : List Exporter) (ref : JVal) :
    ∀ res, runPermissions (l1 ++ l2) ref res =
      match runPermissions l1 ref res with
      | (r, some e) => (r, some e)
      | (r, none) => runPermissions l2 ref r := by
  induction l1 with
  | nil => intro res; simp [runPermissions]
  | cons p t ih =>
    intro res
    simp only [List.cons_append, runPermissions]
    rcases hp : p ref res with ⟨r0, er⟩
    cases er with
    | error e => simp
    | ok v => simp [ih]

/-- C9 amended: when the i-th permission grant's export returns an
error, `LambdaAWSInfo.export` returns that error immediately — no later
grant runs and no event-source mapping is exported (the result is
independent of `post` and of the mapping list) — but the caller's
accumulator is left holding everything already emitted: the function
resource and each earlier grant's resources, plus whatever the failing
exporter itself wrote before erroring. -/
theorem c9_export_abort :
    ∀ (fnName : String) (privs : List IAMRolePrivilege) (opts : LambdaFunctionOptions)
      (b k : String) (rm : List (String × JVal)) (res0 : Resources)
      (pre post : List Exporter) (e : String)
      (femit : JVal → Resources → Resources)
      (esms : List CreateEventSourceMappingInput),
      (runPermissions pre (lambdaFunctionAttr (lambdaResourceName fnName))
          (upsertA (lambdaResourceName fnName)
            (functionPrimaryResource b k opts fnName
              ((alookup (IAMRoleDefinition.logicalName ⟨privs⟩) rm).getD .null)
              [IAMRoleDefinition.logicalName ⟨privs⟩]) res0)).2 = none →
      LambdaAWSInfo.exportInfo
          ⟨fnName, "", some ⟨privs⟩, opts,
            pre ++ (fun ref res => (femit ref res, Except.error e)) :: post, esms⟩
          b k rm res0 =
        some (femit (lambdaFunctionAttr (lambdaResourceName fnName))
          (runPermissions pre (lambdaFunctionAttr (lambdaResourceName fnName))
            (upsertA (lambdaResourceName fnName)
              (functionPrimaryResource b k opts fnName
                ((alookup (IAMRoleDefinition.logicalName ⟨privs⟩) rm).getD .null)
                [IAMRoleDefinition.logicalName ⟨privs⟩]) res0)).1, some e) := by
  intro fnName privs opts b k rm res0 pre post e femit esms hpre
  rw [exportInfo_inline_unfold, runPermissions_append]
  rcases hp : runPermissions pre (lambdaFunctionAttr (lambdaResourceName fnName))
      (upsertA (lambdaResourceName fnName)
        (functionPrimaryResource b k opts fnName
          ((alookup (IAMRoleDefinition.logicalName ⟨privs⟩) rm).getD .null)
          [IAMRoleDefinition.logicalName ⟨privs⟩]) res0) with ⟨rp, ep⟩
  rw [hp] at hpre
  simp only at hpre
  subst hpre
  simp [runPermissions]

/-- C9 witness: the abort theorem instantiated at one failing grant. -/
theorem c9_export_abort_witness :
    LambdaAWSInfo.exportInfo
        ⟨"f", "", some ⟨[]⟩, ⟨"", 128, 3⟩,
          [] ++ (fun _ res => (res, Except.error "boom")) :: [], []⟩
        "bkt" "key" [] [] =
      some (upsertA (lambdaResourceName "f")
        (functionPrimaryResource "bkt" "key" ⟨"", 128, 3⟩ "f"
          ((alookup (IAMRoleDefinition.logicalName ⟨[]⟩) []).getD .null)
          [IAMRoleDefinition.logicalName ⟨[]⟩]) [], some "boom") :=
  c9_export_abort "f" [] ⟨"", 128, 3⟩ "bkt" "key" [] [] [] [] "boom" (fun _ res => res) [] rfl

/-- C9 counterexample: the claim's "no partial document is published to
the caller" fails. With a single failing grant, the export returns the
error, yet the caller-visible accumulator now contains the function
resource — it is not "as if no resource of the failed run had been
emitted". -/
theorem c9_counterexample :
    (LambdaAWSInfo.exportInfo
        ⟨"f", "", some ⟨[]⟩, ⟨"", 128, 3⟩,
          [fun _ res => (res, Except.error "boom")], []⟩
        "bkt" "key" [] []).map (fun r => (r.1.map Prod.fst, r.2)) =
      some ([lambdaResourceName "f"], some "boom") ∧
    (LambdaAWSInfo.exportInfo
        ⟨"f", "", some ⟨[]⟩, ⟨"", 128, 3⟩,
          [fun _ res => (res, Except.error "boom")], []⟩
        "bkt" "key" [] []).map (fun r => r.1.map Prod.fst) ≠ some [] := by
  constructor
  · rfl
  · intro h
    have h2 : (LambdaAWSInfo.exportInfo
        ⟨"f", "", some ⟨[]⟩, ⟨"", 128, 3⟩,
          [fun _ res => (res, Except.error "boom")], []⟩
        "bkt" "key" [] []).map (fun r => r.1.map Prod.fst) =
        some [lambdaResourceName "f"] := rfl
    rw [h2] at h
    simp at h

/-! ### C7: conflict suppression in the permission-grant stage -/

/-- C7 amended: in the permission-grant stage, an `addPermission`
rejection whose message matches the conflict pattern is suppressed and
the stage proceeds exactly as if the grant call had succeeded — in
particular it completes as success whenever the subsequent policy fetch
and parse succeed — while a non-matching rejection propagates verbatim
and fails the stage. -/
theorem c7_conflict_suppression :
    ∀ (env : Env) (arn : String) (cache : PolicyCache) (e : String),
      ((alookup arn cache).getD []).find? (fun kv => kv.2 == statementID arn) = none →
      env.addPermission arn (statementID arn) = .error e →
      (reStatementAlreadyExists e = true →
        ensureLambdaPermissionCreated env (some arn) cache =
          ensureLambdaPermissionCreated
            { env with addPermission := fun _ _ => .ok () } (some arn) cache) ∧
      (reStatementAlreadyExists e = true →
        ∀ pol, env.getPolicy arn = .ok (.ok pol) →
          (ensureLambdaPermissionCreated env (some arn) cache).1.2 = .ok ()) ∧
      (reStatementAlreadyExists e = false →
        ensureLambdaPermissionCreated env (some arn) cache =
          ((cache, .error e), [Call.addPermission arn (statementID arn)])) := by
  intro env arn cache e hmiss hresp
  refine ⟨?_, ?_, ?_⟩
  · intro hre
    simp [ensureLambdaPermissionCreated, hmiss, hresp, hre, permCacheRefresh]
  · intro hre pol hpol
    simp [ensureLambdaPermissionCreated, hmiss, hresp, hre, permCacheRefresh, hpol]
  · intro hre
    simp [ensureLambdaPermissionCreated, hmiss, hresp, hre]

/-- Environment for the C7 scenarios: every `addPermission` is rejected
with a conflict message; the policy fetch fails. -/
def c7Env : Env where
  region := "r"
  getRestApis := .ok []
  deleteRestApi := fun _ => .ok ()
  removePermission := fun _ _ => .ok ()
  createRestApi := fun _ _ _ => .ok "x"
  getResources := fun _ => .ok []
  createResource := fun _ _ _ => .ok "x"
  putMethod := fun _ _ _ _ _ => .ok ()
  putMethodResponse := fun _ _ _ _ => .ok ()
  putIntegration := fun _ _ _ _ => .ok ()
  putIntegrationResponse := fun _ _ _ _ => .ok ()
  addPermission := fun _ _ => .error "ResourceConflictException: Sid already exists"
  getPolicy := fun _ => .error "PolicyFetchFailed"
  getMethod := fun _ _ _ => .ok ()
  createDeployment := fun _ _ _ _ _ _ => .ok ()

/-- C7 environment variant whose policy fetch succeeds. -/
def c7EnvOk : Env := { c7Env with getPolicy := fun _ => .ok (.ok []) }

/-- C7 witness: the suppression equivalence and the verbatim-propagation
branch at concrete inputs. -/
theorem c7_conflict_suppression_witness :
    ensureLambdaPermissionCreated c7EnvOk (some "arnf") [] =
      ensureLambdaPermissionCreated { c7EnvOk with addPermission := fun _ _ => .ok () }
        (some "arnf") [] :=
  (c7_conflict_suppression c7EnvOk "arnf" []
    "ResourceConflictException: Sid already exists" rfl rfl).1 rfl

/-- C7 counterexample: the claim's "the stage completes as success"
fails as stated. A matching (suppressed) conflict rejection followed by
a failing policy fetch leaves the stage failed with the fetch error, so
suppression alone does not make the stage succeed. -/
theorem c7_counterexample :
    reStatementAlreadyExists "ResourceConflictException: Sid already exists" = true ∧
    (ensureLambdaPermissionCreated c7Env (some "arnf") []).1.2 =
      .error "PolicyFetchFailed" ∧
    (ensureLambdaPermissionCreated c7Env (some "arnf") []).1.2 ≠ .ok () := by
  refine ⟨rfl, rfl, ?_⟩
  intro h
  have h2 : (ensureLambdaPermissionCreated c7Env (some "arnf") []).1.2 =
      Except.error "PolicyFetchFailed" := rfl
  rw [h2] at h
  exact Except.noConfusion h

/-! ### C4: walk failure reporting -/

/-- Environment for the C4 scenario: creating the resource for path
component `a` fails, every other remote call succeeds. -/
def c4Env : Env where
  region := "r"
  getRestApis := .ok []
  deleteRestApi := fun _ => .ok ()
  removePermission := fun _ _ => .ok ()
  createRestApi := fun _ _ _ => .ok "api1"
  getResources := fun _ => .ok [("/", "rootid")]
  createResource := fun _ p _ =>
    if p = some "a" then .error "boom" else .ok ("id-" ++ p.getD "root")
  putMethod := fun _ _ _ _ _ => .ok ()
  putMethodResponse := fun _ _ _ _ => .ok ()
  putIntegration := fun _ _ _ _ => .ok ()
  putIntegrationResponse := fun _ _ _ _ => .ok ()
  addPermission := fun _ _ => .ok ()
  getPolicy := fun _ => .ok (.ok [])
  getMethod := fun _ _ _ => .ok ()
  createDeployment := fun _ _ _ _ _ _ => .ok ()

/-- C4 tree: the root has two children queued together; `a` (which has
its own child `c`) fails, its sibling `b` succeeds afterwards. -/
def c4Tree : ResourceTree :=
  .node none []
    [("a", .node (some "a") [] [("c", .node (some "c") [] [])]),
     ("b", .node (some "b") [] [])]

/-- C4 request properties. -/
def c4Props : CFProps := ⟨some ⟨some "MyAPI", none, none, some c4Tree, none⟩⟩

/-- C4: any stage error is claimed to mark the whole walk failed, with
the first error reported. Evaluated at the failing input: node `a`'s
`createResource` is attempted and rejected with `boom` and `a`'s child
`c` is never enqueued, but because `onProcessComplete` executes
`workerError = e` unconditionally for every task, the already-queued
sibling `b`'s later success overwrites the recorded error and the walk
drains reporting success — not the first error. -/
theorem c4_walk_error_overwritten_eval :
    (ensureResourcesCreatedTask c4Env (some "api1") c4Props).1 = .ok () ∧
    c4Env.createResource "rootid" (some "a") "api1" = .error "boom" ∧
    (ensureResourcesCreatedTask c4Env (some "api1") c4Props).2.filter
        (fun c => match c with | .createResource _ _ _ => true | _ => false) =
      [.createResource "rootid" (some "a") "api1",
       .createResource "rootid" (some "b") "api1"] ∧
    (ensureResourcesCreatedTask c4Env (some "api1") c4Props).2.filter
        (fun c => match c with | .createResource _ p _ => p == some "c" | _ => false) =
      [] :=
  ⟨rfl, rfl, rfl, rfl⟩

/-! ### C5: tree-walk ordering -/

theorem jsOrStr_some_empty (s : String) : jsOrStr (some s) "" = s := by
  by_cases h : s = "" <;> simp [jsOrStr, h]

/-- The leaf node `b` of the C5 tree. -/
def c5TreeB : ResourceTree := .node (some "b") [] []

/-- The middle node `a` of the C5 tree, with single child `b`. -/
def c5TreeA : ResourceTree := .node (some "a") [] [("b", c5TreeB)]

/-- The C5 tree: root with the single child chain `a` then `b`. -/
def c5Tree : ResourceTree := .node none [] [("a", c5TreeA)]

/-- C5 request properties. -/
def c5Props : CFProps := ⟨some ⟨some "MyAPI", none, none, some c5Tree, none⟩⟩

/-- C5: for the desired tree root to `a` to `b`, the remote call trace
is exactly `getResources`, then `a`'s `createResource` under the
pre-existing root id, then `b`'s `createResource` under `a`'s resolved
id: `a` is created strictly before any attempt on `b`, `b` receives
`a`'s id as its parent, and the root itself triggers no `createResource`
call (it reuses the fetched index's `/` entry). -/
theorem c5_tree_walk_ordering :
    ∀ (env : Env) (rid rootId ida idb : String),
      env.getResources rid = .ok [("/", rootId)] →
      rootId ≠ "" →
      env.createResource rootId (some "a") rid = .ok ida →
      ida ≠ "" →
      env.createResource ida (some "b") rid = .ok idb →
      (ensureResourcesCreatedTask env (some rid) c5Props).2 =
        [Call.getResources rid, Call.createResource rootId (some "a") rid,
         Call.createResource ida (some "b") rid] ∧
      (ensureResourcesCreatedTask env (some rid) c5Props).1 = .ok () := by
  intro env rid rootId ida idb h1 h2 h3 h4 h5
  have s1 : processResourceEntry env rid [("/", rootId)] c5Tree none [] =
      ((.ok (some rootId), []), []) := by
    simp [processResourceEntry, strTruthy, c5Tree, ResourceTree.path,
      ResourceTree.apiResources, ResourceTree.children, processAPIResources, alookup,
      jsOrOpt, h2]
  have s2 : processResourceEntry env rid [("/", rootId)] c5TreeA (some rootId) [] =
      ((.ok (some ida), []), [Call.createResource rootId (some "a") rid]) := by
    simp [processResourceEntry, strTruthy, c5TreeA, ResourceTree.path,
      ResourceTree.apiResources, ResourceTree.children, processAPIResources, alookup,
      jsOrOpt, h2, h3, h4]
  have s3 : processResourceEntry env rid [("/", rootId)] c5TreeB (some ida) [] =
      ((.ok (some idb), []), [Call.createResource ida (some "b") rid]) := by
    simp [processResourceEntry, strTruthy, c5TreeB, ResourceTree.path,
      ResourceTree.apiResources, ResourceTree.children, processAPIResources, alookup,
      jsOrOpt, h4, h5]
  have w : walkLoop env rid [("/", rootId)] (treeNodes c5Tree + 1) [(c5Tree, none)] none [] =
      ((none, []), [Call.createResource rootId (some "a") rid,
        Call.createResource ida (some "b") rid]) := by
    rw [show treeNodes c5Tree + 1 = 4 from rfl]
    simp only [walkLoop, s1]
    simp only [s2]
    simp only [s3]
    simp
  simp only [ensureResourcesCreatedTask, jsOrStr_some_empty, h1]
  simp only [List.foldl, upsertA]
  simp only [c5Props, Option.bind, Option.getD]
  rw [w]
  simp

/-- Environment for the C5 witness run. -/
def c5Env : Env where
  region := "r"
  getRestApis := .ok []
  deleteRestApi := fun _ => .ok ()
  removePermission := fun _ _ => .ok ()
  createRestApi := fun _ _ _ => .ok "api1"
  getResources := fun _ => .ok [("/", "rootid")]
  createResource := fun _ p _ => .ok ("id-" ++ p.getD "root")
  putMethod := fun _ _ _ _ _ => .ok ()
  putMethodResponse := fun _ _ _ _ => .ok ()
  putIntegration := fun _ _ _ _ => .ok ()
  putIntegrationResponse := fun _ _ _ _ => .ok ()
  addPermission := fun _ _ => .ok ()
  getPolicy := fun _ => .ok (.ok [])
  getMethod := fun _ _ _ => .ok ()
  createDeployment := fun _ _ _ _ _ _ => .ok ()

/-- C5 witness: the ordering theorem at one concrete environment. -/
theorem c5_tree_walk_ordering_witness :
    (ensureResourcesCreatedTask c5Env (some "api1") c5Props).2 =
      [Call.getResources "api1", Call.createResource "rootid" (some "a") "api1",
       Call.createResource "id-a" (some "b") "api1"] ∧
    (ensureResourcesCreatedTask c5Env (some "api1") c5Props).1 = .ok () :=
  c5_tree_walk_ordering c5Env "api1" "rootid" "id-a" "id-b" rfl (by decide) rfl
    (by decide) rfl

/-! ### C6: delete resilience -/

theorem mem_ensureLambdaPermissionsDeleted {f s : String} {arns : List String}
    (h : Call.removePermission f s ∈ ensureLambdaPermissionsDeleted arns) :
    s = statementID f ∧ f ∈ arns := by
  simp only [ensureLambdaPermissionsDeleted, List.mem_map] at h
  obtain ⟨a, ha, heq⟩ := h
  cases heq
  exact ⟨rfl, ha⟩

/-- C6: every Delete request reports SUCCESS — whatever the environment
does, including failing list, delete, or revoke calls — and every
invoke-permission revocation the runtime issues uses a statement id
recomputed from the ARN (`Sparta` plus its hash) for an ARN taken from
the OLD properties' accumulated lambda list; no stored list exists and
no revoke outcome is ever escalated. -/
theorem c6_delete_resilience :
    ∀ (env : Env) (props oldProps : Option CFProps),
      (handler env .Delete props oldProps).1 = .SUCCESS ∧
      (∀ f s, Call.removePermission f s ∈ (handler env .Delete props oldProps).2 →
        s = statementID f ∧ f ∈ oldLambdaArns (oldProps.getD ⟨none⟩)) := by
  intro env props oldProps
  cases props with
  | none =>
    refine ⟨rfl, ?_⟩
    intro f s h
    simp [handler] at h
  | some p =>
    refine ⟨rfl, ?_⟩
    intro f s hmem
    simp only [handler] at hmem
    unfold ensureAPIDeletedTask at hmem
    cases hga : env.getRestApis with
    | error e =>
      rw [hga] at hmem
      simp at hmem
    | ok items =>
      rw [hga] at hmem
      simp only at hmem
      cases hfind : items.find? (fun it => p.API.bind (·.Name) == some it.1) with
      | none =>
        rw [hfind] at hmem
        simp only [List.mem_cons] at hmem
        rcases hmem with h | h
        · exact Call.noConfusion h
        · exact mem_ensureLambdaPermissionsDeleted h
      | some m =>
        rw [hfind] at hmem
        simp only at hmem
        cases hdel : env.deleteRestApi m.2 with
        | error e =>
          rw [hdel] at hmem
          simp at hmem
        | ok u =>
          rw [hdel] at hmem
          simp only [List.mem_cons] at hmem
          rcases hmem with h | h | h
          · exact Call.noConfusion h
          · exact Call.noConfusion h
          · exact mem_ensureLambdaPermissionsDeleted h

/-- OLD-properties tree for the C6 witness: one API resource wired to
`arn1`. -/
def c6Tree : ResourceTree := .node none [("k", ⟨some "arn1", []⟩)] []

/-- OLD properties for the C6 witness. -/
def c6Old : CFProps := ⟨some ⟨some "Old", none, none, some c6Tree, none⟩⟩

/-- Desired properties for the C6 witness. -/
def c6Props : CFProps := ⟨some ⟨some "MyAPI", none, none, none, none⟩⟩

/-- Environment for the C6 witness: the API exists and is deleted, and
every revocation is rejected remotely. -/
def c6Env : Env where
  region := "r"
  getRestApis := .ok [("MyAPI", "rid1")]
  deleteRestApi := fun _ => .ok ()
  removePermission := fun _ _ => .error "revokefail"
  createRestApi := fun _ _ _ => .ok "x"
  getResources := fun _ => .ok []
  createResource := fun _ _ _ => .ok "x"
  putMethod := fun _ _ _ _ _ => .ok ()
  putMethodResponse := fun _ _ _ _ => .ok ()
  putIntegration := fun _ _ _ _ => .ok ()
  putIntegrationResponse := fun _ _ _ _ => .ok ()
  addPermission := fun _ _ => .ok ()
  getPolicy := fun _ => .ok (.ok [])
  getMethod := fun _ _ _ => .ok ()
  createDeployment := fun _ _ _ _ _ _ => .ok ()

/-- C6 witness: a Delete run whose revocation is rejected still reports
SUCCESS, and the issued revocation is for `arn1` with its recomputed
statement id. -/
theorem c6_delete_resilience_witness :
    (handler c6Env .Delete (some c6Props) (some c6Old)).1 = .SUCCESS ∧
    (statementID "arn1" = statementID "arn1" ∧
      "arn1" ∈ oldLambdaArns ((some c6Old).getD ⟨none⟩)) :=
  ⟨(c6_delete_resilience c6Env (some c6Props) (some c6Old)).1,
   (c6_delete_resilience c6Env (some c6Props) (some c6Old)).2 "arn1" (statementID "arn1")
     (by exact .tail _ (.tail _ (.head _)))⟩

/-! ### C8: deployment gating -/

/-- Is this remote call a `createDeployment`? -/
def isDeploymentCall : Call → Bool
  | .createDeployment .. => true
  | _ => false

theorem filter_deploy_removePerms (arns : List String) :
    (ensureLambdaPermissionsDeleted arns).filter isDeploymentCall = [] := by
  induction arns with
  | nil => rfl
  | cons a t ih =>
    simp only [ensureLambdaPermissionsDeleted, List.map_cons, List.filter_cons] at *
    simp [isDeploymentCall, ih]

theorem filter_deploy_delete (env : Env) (props oldProps : CFProps) :
    (ensureAPIDeletedTask env props oldProps).filter isDeploymentCall = [] := by
  unfold ensureAPIDeletedTask
  split
  · rfl
  · dsimp only
    split
    · split
      · rfl
      · simp [List.filter_cons, isDeploymentCall, filter_deploy_removePerms]
    · simp [List.filter_cons, isDeploymentCall, filter_deploy_removePerms]

theorem filter_deploy_cacheRefresh (env : Env) (arn : String) (cache : PolicyCache) :
    (permCacheRefresh env arn cache).2.filter isDeploymentCall = [] := by
  unfold permCacheRefresh
  split <;> rfl

theorem filter_deploy_permCreated (env : Env) (arn : Option String) (cache : PolicyCache) :
    (ensureLambdaPermissionCreated env arn cache).2.filter isDeploymentCall = [] := by
  unfold ensureLambdaPermissionCreated
  split
  · rfl
  · dsimp only
    split
    · rfl
    · split
      · simp [List.filter_cons, isDeploymentCall, filter_deploy_cacheRefresh]
      · split
        · simp [List.filter_cons, isDeploymentCall, filter_deploy_cacheRefresh]
        · rfl

theorem filter_deploy_methodIter (env : Env) (restApiId : String)
    (resourceId : Option String) (arn : Option String) (md : MethodDef)
    (cache : PolicyCache) :
    (methodCreationIterator env restApiId resourceId arn md cache).2.filter
      isDeploymentCall = [] := by
  unfold methodCreationIterator
  dsimp only
  split
  · rfl
  · split
    · rfl
    · split
      · rfl
      · split
        · rfl
        · split
          · simp [List.filter_append, List.filter_cons, isDeploymentCall,
              filter_deploy_permCreated]
          · split <;>
              simp [List.filter_append, List.filter_cons, isDeploymentCall,
                filter_deploy_permCreated]

theorem filter_deploy_methodsCreated (env : Env) (restApiId : String)
    (resourceId : Option String) (arn : Option String) :
    ∀ (ms : List (String × MethodDef)) (cache : PolicyCache),
      (ensureAPIResourceMethodsCreated env restApiId resourceId arn ms cache).2.filter
        isDeploymentCall = [] := by
  intro ms
  induction ms with
  | nil => intro cache; rfl
  | cons m t ih =>
    intro cache
    simp only [ensureAPIResourceMethodsCreated]
    split <;>
      simp [List.filter_append, filter_deploy_methodIter, ih]

theorem filter_deploy_apiResources (env : Env) (restApiId : String)
    (resourceId : Option String) :
    ∀ (ars : List (String × APIResource)) (cache : PolicyCache),
      (processAPIResources env restApiId resourceId ars cache).2.filter
        isDeploymentCall = [] := by
  intro ars
  induction ars with
  | nil => intro cache; rfl
  | cons a t ih =>
    intro cache
    simp only [processAPIResources]
    split <;>
      simp [List.filter_append, filter_deploy_methodsCreated, ih]

theorem filter_deploy_processEntry (env : Env) (restApiId : String)
    (resourceIndex : List (String × String)) (t : ResourceTree)
    (parentId : Option String) (cache : PolicyCache) :
    (processResourceEntry env restApiId resourceIndex t parentId cache).2.filter
      isDeploymentCall = [] := by
  have hcr : List.filter isDeploymentCall
      (if strTruthy parentId = true then
        match env.createResource (parentId.getD "") t.path restApiId with
        | Except.ok cid =>
            (Except.ok (some cid), [Call.createResource (parentId.getD "") t.path restApiId])
        | Except.error e =>
            (Except.error e, [Call.createResource (parentId.getD "") t.path restApiId])
      else (Except.ok (alookup "/" resourceIndex), [])).2 = [] := by
    split
    · split <;> rfl
    · rfl
  unfold processResourceEntry
  dsimp only
  split
  · simp [List.filter_append, hcr, filter_deploy_apiResources]
  · split <;> simp [List.filter_append, hcr, filter_deploy_apiResources]

theorem filter_deploy_walkLoop (env : Env) (restApiId : String)
    (resourceIndex : List (String × String)) :
    ∀ (fuel : Nat) (tasks : List (ResourceTree × Option String))
      (we : Option String) (cache : PolicyCache),
      (walkLoop env restApiId resourceIndex fuel tasks we cache).2.filter
        isDeploymentCall = [] := by
  intro fuel
  induction fuel with
  | zero => intro tasks we cache; rfl
  | succ n ih =>
    intro tasks we cache
    cases tasks with
    | nil => rfl
    | cons tp rest =>
      rcases tp with ⟨t, pid⟩
      simp only [walkLoop]
      split <;>
        simp [List.filter_append, filter_deploy_processEntry, ih]

theorem filter_deploy_resourcesTask (env : Env) (apiId : Option String) (props : CFProps) :
    (ensureResourcesCreatedTask env apiId props).2.filter isDeploymentCall = [] := by
  unfold ensureResourcesCreatedTask
  dsimp only
  split
  · rfl
  · simp [List.filter_cons, isDeploymentCall, filter_deploy_walkLoop]

theorem ensureDeploymentTask_no_stage (env : Env) (apiId : Option String) (props : CFProps)
    (h : strTruthy ((props.API.bind (·.Stage)).bind (·.Name)) = false) :
    ensureDeploymentTask env apiId props = (.ok (), []) := by
  unfold ensureDeploymentTask
  simp [h]

theorem ensureDeploymentTask_stage_calls (env : Env) (apiId : Option String) (props : CFProps)
    (h : strTruthy ((props.API.bind (·.Stage)).bind (·.Name)) = true) :
    (ensureDeploymentTask env apiId props).2 =
      [Call.createDeployment (jsOrStr apiId "")
        (((props.API.bind (·.Stage)).bind (·.Name)).getD "")
        ((props.API.bind (·.Stage)).bind (·.CacheClusterEnabled) == some "true")
        (match (props.API.bind (·.Stage)).bind (·.CacheClusterSize) with
          | some s => if s = "" then none else some s
          | none => none)
        (jsOrStr ((props.API.bind (·.Stage)).bind (·.Description)) "")
        (((props.API.bind (·.Stage)).bind (·.Variables)).getD [])] := by
  unfold ensureDeploymentTask
  simp only [h, if_true]
  split <;> rfl

/-- C8: a Create/Update request whose desired spec names no deployment
stage performs zero `createDeployment` calls over the whole run; one
whose spec names a stage and which completes successfully performs
exactly one, against the id returned by `createRestApi` and carrying the
stage name, description, variables and optional cache-cluster sizing
through verbatim. -/
theorem c8_deployment_gating :
    ∀ (env : Env) (props : CFProps) (oldProps : Option CFProps) (rt : RequestType),
      rt ≠ .Delete →
      (strTruthy ((props.API.bind (·.Stage)).bind (·.Name)) = false →
        (handler env rt (some props) oldProps).2.filter isDeploymentCall = []) ∧
      (strTruthy ((props.API.bind (·.Stage)).bind (·.Name)) = true →
        (handler env rt (some props) oldProps).1 = .SUCCESS →
        (handler env rt (some props) oldProps).2.filter isDeploymentCall =
          [Call.createDeployment (jsOrStr (apiIdOf env props) "")
            (((props.API.bind (·.Stage)).bind (·.Name)).getD "")
            ((props.API.bind (·.Stage)).bind (·.CacheClusterEnabled) == some "true")
            (match (props.API.bind (·.Stage)).bind (·.CacheClusterSize) with
              | some s => if s = "" then none else some s
              | none => none)
            (jsOrStr ((props.API.bind (·.Stage)).bind (·.Description)) "")
            (((props.API.bind (·.Stage)).bind (·.Variables)).getD [])]) := by
  intro env props oldProps rt hrt
  cases rt with
  | Delete => exact absurd rfl hrt
  | Create =>
    constructor
    · intro hfalse
      simp only [handler]
      split <;>
        simp [List.filter_append, List.filter_cons, isDeploymentCall, createRestApiCall,
          filter_deploy_delete, filter_deploy_resourcesTask,
          ensureDeploymentTask_no_stage env _ props hfalse]
    · intro htrue hsucc
      simp only [handler] at hsucc ⊢
      rcases hr : (ensureResourcesCreatedTask env (apiIdOf env props) props).1 with e | u
      · simp [hr] at hsucc
      · rcases hd : (ensureDeploymentTask env (apiIdOf env props) props).1 with e2 | u2
        · simp [hr, hd] at hsucc
        · simp [hr, hd, List.filter_append, List.filter_cons, isDeploymentCall,
            createRestApiCall, filter_deploy_delete, filter_deploy_resourcesTask,
            ensureDeploymentTask_stage_calls env _ props htrue]
  | Update =>
    constructor
    · intro hfalse
      simp only [handler]
      split <;>
        simp [List.filter_append, List.filter_cons, isDeploymentCall, createRestApiCall,
          filter_deploy_delete, filter_deploy_resourcesTask,
          ensureDeploymentTask_no_stage env _ props hfalse]
    · intro htrue hsucc
      simp only [handler] at hsucc ⊢
      rcases hr : (ensureResourcesCreatedTask env (apiIdOf env props) props).1 with e | u
      · simp [hr] at hsucc
      · rcases hd : (ensureDeploymentTask env (apiIdOf env props) props).1 with e2 | u2
        · simp [hr, hd] at hsucc
        · simp [hr, hd, List.filter_append, List.filter_cons, isDeploymentCall,
            createRestApiCall, filter_deploy_delete, filter_deploy_resourcesTask,
            ensureDeploymentTask_stage_calls env _ props htrue]

/-- C8 properties without a deployment stage. -/
def c8PropsNoStage : CFProps := ⟨some ⟨some "API", none, none, none, none⟩⟩

/-- C8 stage definition with name, cache sizing, description, and
variables. -/
def c8Stage : StageDef :=
  ⟨some "prod", some "true", some "0.5", some "desc", some [("k1", "v1")]⟩

/-- C8 properties naming a deployment stage. -/
def c8PropsStage : CFProps := ⟨some ⟨some "API", none, none, none, some c8Stage⟩⟩

/-- C8 witness: concrete gating runs — zero deployment calls without a
stage, exactly one carrying the stage fields with one. -/
theorem c8_deployment_gating_witness :
    (handler c5Env .Create (some c8PropsNoStage) none).2.filter isDeploymentCall = [] ∧
    (handler c5Env .Create (some c8PropsStage) none).2.filter isDeploymentCall =
      [Call.createDeployment (jsOrStr (apiIdOf c5Env c8PropsStage) "")
        (((c8PropsStage.API.bind (·.Stage)).bind (·.Name)).getD "")
        ((c8PropsStage.API.bind (·.Stage)).bind (·.CacheClusterEnabled) == some "true")
        (match (c8PropsStage.API.bind (·.Stage)).bind (·.CacheClusterSize) with
          | some s => if s = "" then none else some s
          | none => none)
        (jsOrStr ((c8PropsStage.API.bind (·.Stage)).bind (·.Description)) "")
        (((c8PropsStage.API.bind (·.Stage)).bind (·.Variables)).getD [])] :=
  ⟨(c8_deployment_gating c5Env c8PropsNoStage none .Create (by decide)).1 rfl,
   (c8_deployment_gating c5Env c8PropsStage none .Create (by decide)).2 rfl rfl⟩

end SpartaVerify
